import Mathlib

/-!
Verification of the vehicle-tracker route-matching pipeline.

The repository contains two matching pipelines built from the same parts:

* a server handler, src/app/api/map-match/route.ts: it sorts the
  submitted fixes by timestamp, downsamples a sequence of more than 100
  points by time interval, issues one request to the external matching
  endpoint, falls back to the directions endpoint (reducing to 25
  waypoints by even index stride first) and finally to a locally built
  simple line (reduced to 50 points by even index stride);

* a client component, src/components/map-component.tsx: for more than
  100 points it splits the sequence into consecutive batches of 100
  (dropping a trailing batch of fewer than 2 points), matches every
  batch, merges the successful batch geometries and averages their
  confidences, and falls back to the directions endpoint with a fixed
  confidence of 0.9.

Both are embedded below.  JavaScript numbers are modelled as rationals,
so floating-point rounding is idealized; every concrete input used in a
counterexample keeps the involved divisions exact, so the modelled run
agrees with the IEEE-754 run on those inputs.  Timestamps are the
millisecond values produced by Date.getTime, modelled as rationals.
-/

/-- A GPS fix as in src/types/coordinates.ts.  The timestamp field holds
the epoch-millisecond value of the ISO string. -/
structure Coordinate where
  id : String
  latitude : ℚ
  longitude : ℚ
  timestamp : ℚ
deriving DecidableEq, Repr

instance : Inhabited Coordinate := ⟨⟨"", 0, 0, 0⟩⟩

/-- JavaScript Math.round: round half toward positive infinity. -/
def jsRound (q : ℚ) : ℤ := ⌊q + 1 / 2⌋

/-- Stable insert of a fix in front of the first element with an equal or
later timestamp.  Helper for the timestamp sort. -/
def insertByTime (c : Coordinate) : List Coordinate → List Coordinate
  | [] => [c]
  | d :: rest =>
    if c.timestamp ≤ d.timestamp then c :: d :: rest
    else d :: insertByTime c rest

/-- The temporal normalizer of route.ts (the sort call on line 37):
a stable sort of the fixes, ascending by timestamp. -/
def sortCoordinates : List Coordinate → List Coordinate
  | [] => []
  | c :: rest => insertByTime c (sortCoordinates rest)

/-- Scan deciding whether consecutive timestamps never decrease. -/
def sortedByTimeB : List Coordinate → Bool
  | [] => true
  | [_] => true
  | a :: b :: rest => a.timestamp ≤ b.timestamp && sortedByTimeB (b :: rest)

/-- A sequence is in normalized order when timestamps never decrease. -/
def sortedByTime (l : List Coordinate) : Prop := sortedByTimeB l = true

instance (l : List Coordinate) : Decidable (sortedByTime l) :=
  inferInstanceAs (Decidable (sortedByTimeB l = true))

/-- The scan over the interior fixes of the time-based sampler in
route.ts (lines 57-63): emit a fix whenever its timestamp has advanced
at least timeStep past the timestamp of the last emitted fix. -/
def timeSampleLoop : List Coordinate → ℚ → ℚ → List Coordinate
  | [], _, _ => []
  | c :: rest, currentTime, timeStep =>
    if currentTime + timeStep ≤ c.timestamp then
      c :: timeSampleLoop rest c.timestamp timeStep
    else
      timeSampleLoop rest currentTime timeStep

/-- The time-based sampling block of route.ts (lines 46-67), run on the
sorted sequence when it exceeds maxCoordinates: always keep the first
and last fix and scan the interior with timeSampleLoop. -/
def timeBasedSample (sorted : List Coordinate) (maxCoordinates : ℕ) : List Coordinate :=
  let first := sorted.getD 0 default
  let last := sorted.getD (sorted.length - 1) default
  let timeSpan : ℚ := last.timestamp - first.timestamp
  let timeStep : ℚ := timeSpan / ((maxCoordinates : ℚ) - 1)
  first :: timeSampleLoop ((sorted.drop 1).dropLast) first.timestamp timeStep ++ [last]

/-- The adaptive sampling decision of route.ts (lines 42-68): sequences
of at most maxCoordinates fixes pass through unchanged. -/
def adaptiveSample (sorted : List Coordinate) (maxCoordinates : ℕ) : List Coordinate :=
  if maxCoordinates < sorted.length then timeBasedSample sorted maxCoordinates
  else sorted

/-- The per-request point limit of route.ts (line 42). -/
def maxCoordinates : ℕ := 100

/-- sampleCoordinatesEvenly of route.ts (lines 187-202): keep the first
and last fix and pick targetCount - 2 interior fixes at evenly strided,
rounded source indices. -/
def sampleCoordinatesEvenly (coordinates : List Coordinate) (targetCount : ℕ) : List Coordinate :=
  if coordinates.length ≤ targetCount then coordinates
  else
    let step : ℚ := ((coordinates.length : ℚ) - 1) / ((targetCount : ℚ) - 1)
    coordinates.getD 0 default ::
      ((List.range (targetCount - 2)).map fun (i : ℕ) =>
        coordinates.getD (jsRound (((i : ℚ) + 1) * step)).toNat default)
      ++ [coordinates.getD (coordinates.length - 1) default]

/-- The source indices selected by sampleCoordinatesEvenly: the whole
range when no reduction happens, otherwise 0, the rounded strides, and
the last index. -/
def evenSampleIndices (len targetCount : ℕ) : List ℕ :=
  if len ≤ targetCount then List.range len
  else
    let step : ℚ := ((len : ℚ) - 1) / ((targetCount : ℚ) - 1)
    0 :: ((List.range (targetCount - 2)).map fun (i : ℕ) =>
        (jsRound (((i : ℚ) + 1) * step)).toNat)
      ++ [len - 1]

/-- The sequence route.ts submits to the matching endpoint: the sorted
input, time-sampled down when it exceeds maxCoordinates (lines 37-68). -/
def processedOf (coordinates : List Coordinate) : List Coordinate :=
  adaptiveSample (sortCoordinates coordinates) maxCoordinates

/-- One candidate match in the matching endpoint response body
(route.ts lines 6-15). -/
structure MapboxMatching where
  geometry : List (ℚ × ℚ)
  distance : ℚ
  duration : ℚ
  confidence : ℚ
deriving DecidableEq, Repr

/-- One per-point diagnostic of the matching endpoint response
(route.ts lines 16-21); a null entry is a point the service could not
place. -/
structure Tracepoint where
  matchings_index : ℕ
  waypoint_index : ℕ
  alternatives_count : ℕ
  distance_along_geometry : ℚ
deriving DecidableEq, Repr

/-- The parsed matching endpoint response body (route.ts lines 5-22). -/
structure MapboxMatchingResponse where
  matchings : List MapboxMatching
  tracepoints : List (Option Tracepoint)
deriving DecidableEq, Repr

/-- One route of the directions endpoint response. -/
structure DirectionsRoute where
  geometry : List (ℚ × ℚ)
  distance : ℚ
  duration : ℚ
deriving DecidableEq, Repr

/-- The outcome of one awaited request, as the handler observes it:
netError is a rejected promise (the fetch itself, or reading the
response body, threw - this propagates to the top-level catch of
route.ts lines 174-182); httpError is a response with a non-ok status;
success carries the parse result of an ok response body, none when that
body is not valid JSON. -/
inductive HttpResult (β : Type) where
  | netError : HttpResult β
  | httpError : HttpResult β
  | success : Option β → HttpResult β
deriving DecidableEq, Repr

/-- The external world as the server handler sees it: whether the access
token environment variable is set, and the outcome of the (at most one)
request to each endpoint.  For the directions endpoint the body of a
success is its routes list. -/
structure ServerEnv where
  tokenConfigured : Bool
  matchingResponse : HttpResult MapboxMatchingResponse
  directionsResponse : HttpResult (List DirectionsRoute)
deriving DecidableEq, Repr

/-- The JSON payload of a successful handler response (route.ts lines
105-113, 146-153, 165-172); fields absent from a variant are none. -/
structure RouteResult where
  geometry : List (ℚ × ℚ)
  distance : Option ℚ
  duration : Option ℚ
  confidence : Option ℚ
  method : String
  processedPoints : ℕ
  originalPoints : ℕ
deriving DecidableEq, Repr

/-- A handler response: an error status with message, or a route
payload. -/
inductive ApiResponse where
  | apiError (status : ℕ) (message : String)
  | apiRoute (result : RouteResult)
deriving DecidableEq, Repr

/-- The route payload of a response, if it is not an error. -/
def ApiResponse.routeResult : ApiResponse → Option RouteResult
  | .apiError _ _ => none
  | .apiRoute r => some r

/-- A run of the handler: the response plus whether each external
endpoint was actually called. -/
structure PostOutcome where
  response : ApiResponse
  matchingCalled : Bool
  directionsCalled : Bool
deriving DecidableEq, Repr

/-- The final fallback of route.ts (lines 157-173): reduce the processed
sequence to at most 50 points by even index stride and join them as a
plain line; no confidence is reported.  Reached only after both external
calls, so both call flags are true. -/
def simpleFallback (processed : List Coordinate) (originalCount : ℕ) : PostOutcome :=
  let simpleCoordinates :=
    if 50 < processed.length then sampleCoordinatesEvenly processed 50 else processed
  ⟨.apiRoute ⟨simpleCoordinates.map (fun c => (c.longitude, c.latitude)),
      none, none, none, "simple", simpleCoordinates.length, originalCount⟩,
    true, true⟩

/-- The directions fallback of route.ts (lines 122-155): reduce the
processed sequence to at most 25 waypoints by even index stride and
issue one directions request.  A non-ok response skips the body read and
falls through to simpleFallback, as does an ok response whose routes
list is empty; but a rejected fetch, or an ok response whose body fails
the json() call on line 141, throws out of the whole handler and the
catch on lines 174-182 answers 500 Failed to process route.  A non-empty
route list answers with the first route and no confidence. -/
def directionsFallback (env : ServerEnv) (processed : List Coordinate)
    (originalCount : ℕ) : PostOutcome :=
  let directionsCoordinates :=
    if 25 < processed.length then sampleCoordinatesEvenly processed 25 else processed
  match env.directionsResponse with
  | .netError => ⟨.apiError 500 "Failed to process route", true, true⟩
  | .httpError => simpleFallback processed originalCount
  | .success none => ⟨.apiError 500 "Failed to process route", true, true⟩
  | .success (some routes) =>
    match routes with
    | route :: _ =>
        ⟨.apiRoute ⟨route.geometry, some route.distance, some route.duration,
            none, "directions", directionsCoordinates.length, originalCount⟩,
          true, true⟩
    | [] => simpleFallback processed originalCount

/-- The POST handler of route.ts (lines 24-178).  Guard order follows the
source: token check first (lines 28-30), then the 2-point minimum (lines
32-34); then the sorted, sampled sequence is submitted to the matching
endpoint, and an HTTP-success response with a parseable body and a
non-empty matchings list answers with method map-matching and confidence
equal to the fraction of non-null tracepoints; anything else falls
through to the directions fallback: a non-ok status is only logged
(line 119) and an HTTP-success body that fails JSON.parse is caught by
the inner try on lines 115-117.  Only a rejected matching fetch (or a
rejected body read, line 91) escapes to the top-level catch and answers
500 Failed to process route. -/
def POST (env : ServerEnv) (coordinates : List Coordinate) : PostOutcome :=
  if env.tokenConfigured = false then
    ⟨.apiError 500 "Mapbox access token not configured", false, false⟩
  else if coordinates.length < 2 then
    ⟨.apiError 400 "At least 2 coordinates are required", false, false⟩
  else
    let processed := processedOf coordinates
    match env.matchingResponse with
    | .netError => ⟨.apiError 500 "Failed to process route", true, false⟩
    | .httpError => directionsFallback env processed coordinates.length
    | .success none => directionsFallback env processed coordinates.length
    | .success (some data) =>
      match data.matchings with
      | matching :: _ =>
        let validTracepoints := data.tracepoints.filter (fun tp => tp.isSome)
        ⟨.apiRoute ⟨matching.geometry, some matching.distance, some matching.duration,
            some ((validTracepoints.length : ℚ) / (processed.length : ℚ)),
            "map-matching", processed.length, coordinates.length⟩,
          true, false⟩
      | [] => directionsFallback env processed coordinates.length

/-- JavaScript value-or-default on a number that may be absent: the
or-else operator treats both undefined and 0 as falsy
(map-component.tsx line 64). -/
def jsOrQ (v : Option ℚ) (d : ℚ) : ℚ :=
  match v with
  | none => d
  | some x => if x = 0 then d else x

/-- One candidate match as the client reads it (map-component.tsx lines
58-67): the geometry, the service confidence (absent or 0 falls back to
0.8) and the legs array whose length becomes processedPoints. -/
structure ClientMatching where
  geometry : List (ℚ × ℚ)
  confidence : Option ℚ
  legs : Option (List Unit)
deriving DecidableEq

/-- The parsed matching response body as the client reads it. -/
structure ClientMatchingBody where
  matchings : List ClientMatching
deriving DecidableEq

/-- The external world as the client component sees it: the response of
the matching endpoint as a function of the submitted point list (the
batch runs issue one request per batch), and the response of the single
directions request.  A value of none models a thrown error: a non-ok
HTTP status or a JSON parse failure, both of which the source catches
and turns into a null result. -/
structure ClientEnv where
  matchingOf : List Coordinate → Option ClientMatchingBody
  directionsRoutes : Option (List DirectionsRoute)

/-- The client-side result record (map-component.tsx lines 18-24);
confidence is always present here. -/
structure MapMatchingResponse where
  geometry : List (ℚ × ℚ)
  method : String
  confidence : ℚ
  processedPoints : ℕ
  originalPoints : ℕ
deriving DecidableEq

/-- performMapMatching of map-component.tsx (lines 34-77): one request
for the given points; null when fewer than 2 points are given, the
request fails, the body cannot be parsed, or the matchings list is
empty. -/
def performMapMatching (env : ClientEnv) (coordinates : List Coordinate) :
    Option MapMatchingResponse :=
  if coordinates.length < 2 then none
  else
    match env.matchingOf coordinates with
    | none => none
    | some data =>
      match data.matchings with
      | matching :: _ =>
          some ⟨matching.geometry, "map-matching", jsOrQ matching.confidence (4 / 5),
                (match matching.legs with | none => 0 | some legs => legs.length),
                coordinates.length⟩
      | [] => none

/-- The per-request point limit of map-component.tsx (line 83). -/
def maxPointsPerRequest : ℕ := 100

/-- The batch-splitting loop of map-component.tsx (lines 87-92),
recursing on an explicit fuel so that the recursion is structural; a
fuel equal to the list length suffices whenever maxPts is at least 1,
as every step consumes at least one element.  Each step takes the next
window of maxPts fixes and keeps it only if it has at least 2 fixes. -/
def batchSplitGo (maxPts : ℕ) : ℕ → List Coordinate → List (List Coordinate)
  | 0, _ => []
  | _, [] => []
  | fuel + 1, l =>
    let batch := l.take maxPts
    if 2 ≤ batch.length then batch :: batchSplitGo maxPts fuel (l.drop maxPts)
    else batchSplitGo maxPts fuel (l.drop maxPts)

/-- The batch splitter of map-component.tsx (lines 84-92): consecutive
windows of maxPts fixes, a window of fewer than 2 fixes dropped. -/
def batchSplit (coordinates : List Coordinate) (maxPts : ℕ) : List (List Coordinate) :=
  batchSplitGo maxPts coordinates.length coordinates

/-- performBatchMapMatching of map-component.tsx (lines 80-137): split
into batches, match every batch (the source fires the requests
concurrently and joins them with a promise barrier that preserves batch
order, so the joined result list is the map of the per-batch call over
the batch list), keep the non-null results, and if any remain merge
them: geometries are concatenated in batch order and the confidence is
the arithmetic mean of the successful batch confidences. -/
def performBatchMapMatching (env : ClientEnv) (coordinates : List Coordinate) :
    Option MapMatchingResponse :=
  if coordinates.length < 2 then none
  else
    let batches := batchSplit coordinates maxPointsPerRequest
    if batches.isEmpty then none
    else
      let batchResults := batches.map (performMapMatching env)
      let successfulResults := batchResults.filterMap id
      if successfulResults.isEmpty then none
      else
        some ⟨(successfulResults.map (fun r => r.geometry)).flatten,
              "map-matching",
              (successfulResults.map (fun r => r.confidence)).sum /
                (successfulResults.length : ℚ),
              (successfulResults.map (fun r => r.processedPoints)).sum,
              coordinates.length⟩

/-- The waypoint index loop of performDirectionsMatching
(map-component.tsx lines 152-155): from index step upward in strides of
step while below the last index.  Fueled for structural recursion; a
fuel of len suffices since step is at least 1. -/
def waypointLoop (step len : ℕ) : ℕ → ℕ → List ℕ
  | 0, _ => []
  | fuel + 1, i => if i < len - 1 then i :: waypointLoop step len fuel (i + step) else []

/-- The interior waypoint indices of performDirectionsMatching
(map-component.tsx lines 150-156): present only when more than 2 points
exist, with stride max 1 (floor (len / 23)). -/
def waypointIndices (len : ℕ) : List ℕ :=
  if 2 < len then waypointLoop (max 1 (len / 23)) len len (max 1 (len / 23))
  else []

/-- performDirectionsMatching of map-component.tsx (lines 140-191): one
directions request over the first fix, the strided interior waypoints
and the last fix; a non-empty route list yields method directions with
the constant confidence 0.9 (line 180). -/
def performDirectionsMatching (env : ClientEnv) (coordinates : List Coordinate) :
    Option MapMatchingResponse :=
  if coordinates.length < 2 then none
  else
    let waypoints := coordinates.getD 0 default ::
        ((waypointIndices coordinates.length).map fun i => coordinates.getD i default)
        ++ [coordinates.getD (coordinates.length - 1) default]
    match env.directionsRoutes with
    | some (route :: _) =>
        some ⟨route.geometry, "directions", 9 / 10, waypoints.length, coordinates.length⟩
    | _ => none

/-- The processRoute cascade of map-component.tsx (lines 223-243): a
single matching request for up to 100 points, the batched run above
that, and the directions fallback when matching produced nothing. -/
def clientProcessRoute (env : ClientEnv) (coordinates : List Coordinate) :
    Option MapMatchingResponse :=
  let matchedRoute :=
    if coordinates.length ≤ 100 then performMapMatching env coordinates
    else performBatchMapMatching env coordinates
  match matchedRoute with
  | some r => some r
  | none => performDirectionsMatching env coordinates

/-- Modelled from the spec: section 3 fixes the abstract method names of
a MatchResult as matched, routed and simple, while the source tags
results with the strings map-matching, directions and simple; this is
the dictionary between the two vocabularies. -/
def specMethod : String → Option String
  | "map-matching" => some "matched"
  | "directions" => some "routed"
  | "simple" => some "simple"
  | _ => none

theorem insertByTime_length (c : Coordinate) (l : List Coordinate) :
    (insertByTime c l).length = l.length + 1 := by
  induction l with
  | nil => rfl
  | cons d rest ih =>
    unfold insertByTime
    split
    · simp
    · simp [ih]

theorem sortCoordinates_length (l : List Coordinate) :
    (sortCoordinates l).length = l.length := by
  induction l with
  | nil => rfl
  | cons c rest ih => simp [sortCoordinates, insertByTime_length, ih]

theorem timeSampleLoop_length_le (l : List Coordinate) :
    ∀ t s : ℚ, (timeSampleLoop l t s).length ≤ l.length := by
  induction l with
  | nil => intro t s; simp [timeSampleLoop]
  | cons c rest ih =>
    intro t s
    unfold timeSampleLoop
    split
    · simpa using ih c.timestamp s
    · exact le_trans (ih t s) (by simp)

theorem timeBasedSample_length (l : List Coordinate) (M : ℕ) (h : 2 ≤ l.length) :
    2 ≤ (timeBasedSample l M).length ∧ (timeBasedSample l M).length ≤ l.length := by
  simp only [timeBasedSample, List.length_append, List.length_cons, List.length_nil]
  have hle := timeSampleLoop_length_le ((l.drop 1).dropLast)
      (l.getD 0 default).timestamp
      (((l.getD (l.length - 1) default).timestamp - (l.getD 0 default).timestamp) /
        ((M : ℚ) - 1))
  simp only [List.length_dropLast, List.length_drop] at hle
  omega

theorem adaptiveSample_length (l : List Coordinate) (M : ℕ) (h : 2 ≤ l.length) :
    2 ≤ (adaptiveSample l M).length ∧ (adaptiveSample l M).length ≤ l.length := by
  unfold adaptiveSample
  split
  · exact timeBasedSample_length l M h
  · exact ⟨h, le_refl _⟩

theorem head?_eq_getD (l : List Coordinate) (h : l ≠ []) :
    l.head? = some (l.getD 0 default) := by
  cases l with
  | nil => simp at h
  | cons a t => rfl

theorem getLast?_eq_getD (l : List Coordinate) (h : l ≠ []) :
    l.getLast? = some (l.getD (l.length - 1) default) := by
  have hlt : l.length - 1 < l.length := by
    cases l with
    | nil => simp at h
    | cons a t => simp
  rw [List.getLast?_eq_getElem?, List.getD_eq_getElem?_getD,
    List.getElem?_eq_getElem hlt]
  rfl

theorem ne_nil_of_two_le {l : List Coordinate} (h : 2 ≤ l.length) : l ≠ [] := by
  cases l with
  | nil => simp at h
  | cons a t => simp

theorem timeBasedSample_head? (l : List Coordinate) (M : ℕ) (h : 2 ≤ l.length) :
    (timeBasedSample l M).head? = l.head? := by
  rw [head?_eq_getD l (ne_nil_of_two_le h)]
  simp [timeBasedSample]

theorem timeBasedSample_getLast? (l : List Coordinate) (M : ℕ) (h : 2 ≤ l.length) :
    (timeBasedSample l M).getLast? = l.getLast? := by
  rw [getLast?_eq_getD l (ne_nil_of_two_le h)]
  simp only [timeBasedSample]
  rw [List.getLast?_concat]

/-- The all-identical input on which time-based sampling fails to shrink:
101 fixes sharing one timestamp give a zero time step, so every interior
fix is emitted. -/
def ex101 : List Coordinate := List.replicate 101 default

set_option maxRecDepth 200000 in
/-- Claim C4 (counterexample): on 101 fixes with equal timestamps - a
normalized sequence of length 101 at target 100 - the time-interval
policy returns all 101 fixes, not min(101, 100) = 100: a zero total time
span makes the time step zero, so the emission test always passes. -/
theorem C4_counterexample :
    sortedByTime ex101 ∧ 2 ≤ ex101.length ∧ 2 ≤ maxCoordinates ∧
    (adaptiveSample ex101 maxCoordinates).length ≠ min ex101.length maxCoordinates := by
  with_unfolding_all decide

/-- Claim C4 (amended): for a normalized input of length at least 2 and
a target of at least 2, the time-interval policy outputs between 2 and
len fixes; the exact count min(len, M) claimed by the spec does not hold
in general. -/
theorem C4_time_sampling_length (l : List Coordinate) (M : ℕ)
    (hl : 2 ≤ l.length) (_hM : 2 ≤ M) :
    2 ≤ (adaptiveSample l M).length ∧ (adaptiveSample l M).length ≤ l.length :=
  adaptiveSample_length l M hl

theorem C4_time_sampling_length_witness :
    2 ≤ ([⟨"a", 0, 0, 0⟩, ⟨"b", 0, 0, 1⟩, ⟨"c", 0, 0, 2⟩] : List Coordinate).length ∧
    2 ≤ 2 ∧
    (2 ≤ (adaptiveSample [⟨"a", 0, 0, 0⟩, ⟨"b", 0, 0, 1⟩, ⟨"c", 0, 0, 2⟩] 2).length ∧
      (adaptiveSample [⟨"a", 0, 0, 0⟩, ⟨"b", 0, 0, 1⟩, ⟨"c", 0, 0, 2⟩] 2).length ≤
        ([⟨"a", 0, 0, 0⟩, ⟨"b", 0, 0, 1⟩, ⟨"c", 0, 0, 2⟩] : List Coordinate).length) :=
  ⟨by decide, by decide,
    C4_time_sampling_length [⟨"a", 0, 0, 0⟩, ⟨"b", 0, 0, 1⟩, ⟨"c", 0, 0, 2⟩] 2
      (by decide) (by decide)⟩

/-- Claim C5 (confirmed): the time-interval policy keeps the first
element of its input first and the last element last, for any input of
length at least 2 and any target of at least 2: the source pushes the
first fix before and the last fix after the interior scan, and passes
short inputs through unchanged. -/
theorem C5_first_last_retained (l : List Coordinate) (M : ℕ)
    (hl : 2 ≤ l.length) (_hM : 2 ≤ M) :
    (adaptiveSample l M).head? = l.head? ∧
    (adaptiveSample l M).getLast? = l.getLast? := by
  unfold adaptiveSample
  split
  · exact ⟨timeBasedSample_head? l M hl, timeBasedSample_getLast? l M hl⟩
  · exact ⟨rfl, rfl⟩

theorem C5_first_last_retained_witness :
    2 ≤ ([⟨"a", 0, 0, 0⟩, ⟨"b", 0, 0, 5⟩, ⟨"c", 0, 0, 9⟩] : List Coordinate).length ∧
    2 ≤ 2 ∧
    ((adaptiveSample [⟨"a", 0, 0, 0⟩, ⟨"b", 0, 0, 5⟩, ⟨"c", 0, 0, 9⟩] 2).head? =
        ([⟨"a", 0, 0, 0⟩, ⟨"b", 0, 0, 5⟩, ⟨"c", 0, 0, 9⟩] : List Coordinate).head? ∧
      (adaptiveSample [⟨"a", 0, 0, 0⟩, ⟨"b", 0, 0, 5⟩, ⟨"c", 0, 0, 9⟩] 2).getLast? =
        ([⟨"a", 0, 0, 0⟩, ⟨"b", 0, 0, 5⟩, ⟨"c", 0, 0, 9⟩] : List Coordinate).getLast?) :=
  ⟨by decide, by decide,
    C5_first_last_retained [⟨"a", 0, 0, 0⟩, ⟨"b", 0, 0, 5⟩, ⟨"c", 0, 0, 9⟩] 2
      (by decide) (by decide)⟩

/-- Claim C7 (confirmed): for 2 to 100 fixes the adaptive sampler is the
identity - the sequence submitted to the matching request is exactly the
normalized (timestamp-sorted) input, because the time-based reduction
only runs above maxCoordinates = 100 points. -/
theorem C7_sampler_identity (coordinates : List Coordinate)
    (h2 : 2 ≤ coordinates.length) (h100 : coordinates.length ≤ 100) :
    processedOf coordinates = sortCoordinates coordinates := by
  unfold processedOf adaptiveSample
  have hcond : ¬ (maxCoordinates < (sortCoordinates coordinates).length) := by
    rw [sortCoordinates_length]
    unfold maxCoordinates
    omega
  simp [hcond]

theorem C7_sampler_identity_witness :
    2 ≤ ([⟨"b", 0, 0, 7⟩, ⟨"a", 0, 0, 3⟩] : List Coordinate).length ∧
    ([⟨"b", 0, 0, 7⟩, ⟨"a", 0, 0, 3⟩] : List Coordinate).length ≤ 100 ∧
    processedOf [⟨"b", 0, 0, 7⟩, ⟨"a", 0, 0, 3⟩] =
      sortCoordinates [⟨"b", 0, 0, 7⟩, ⟨"a", 0, 0, 3⟩] :=
  ⟨by decide, by decide,
    C7_sampler_identity [⟨"b", 0, 0, 7⟩, ⟨"a", 0, 0, 3⟩] (by decide) (by decide)⟩

theorem sampleCoordinatesEvenly_length (l : List Coordinate) (M : ℕ) (hM : 2 ≤ M) :
    (sampleCoordinatesEvenly l M).length = min l.length M := by
  unfold sampleCoordinatesEvenly
  split
  · next h => rw [Nat.min_eq_left h]
  · next h =>
    rw [List.length_append, List.length_cons, List.length_map, List.length_range,
      List.length_cons, List.length_nil]
    omega

theorem processedOf_two_le (coordinates : List Coordinate)
    (h : 2 ≤ coordinates.length) : 2 ≤ (processedOf coordinates).length := by
  unfold processedOf
  exact (adaptiveSample_length _ _ (by rw [sortCoordinates_length]; exact h)).1

theorem processedOf_length_of_le (coordinates : List Coordinate)
    (h : coordinates.length ≤ 100) :
    (processedOf coordinates).length = coordinates.length := by
  unfold processedOf adaptiveSample
  have hcond : ¬ (maxCoordinates < (sortCoordinates coordinates).length) := by
    rw [sortCoordinates_length]; unfold maxCoordinates; omega
  rw [if_neg hcond, sortCoordinates_length]

theorem directionsFallback_called (env : ServerEnv) (processed : List Coordinate)
    (n : ℕ) :
    (directionsFallback env processed n).directionsCalled = true ∧
    (directionsFallback env processed n).matchingCalled = true := by
  simp only [directionsFallback, simpleFallback]
  split
  · exact ⟨by trivial, by trivial⟩
  · exact ⟨by trivial, by trivial⟩
  · exact ⟨by trivial, by trivial⟩
  · split
    · exact ⟨by trivial, by trivial⟩
    · exact ⟨by trivial, by trivial⟩

theorem directionsFallback_thrown (env : ServerEnv) (processed : List Coordinate)
    (n : ℕ) (h : env.directionsResponse = HttpResult.netError ∨
      env.directionsResponse = HttpResult.success none) :
    directionsFallback env processed n =
      ⟨.apiError 500 "Failed to process route", true, true⟩ := by
  rcases h with h | h
  · unfold directionsFallback; simp [h]
  · unfold directionsFallback; simp [h]

theorem directionsFallback_no_error (env : ServerEnv) (processed : List Coordinate)
    (n : ℕ) (hnet : env.directionsResponse ≠ HttpResult.netError)
    (hparse : env.directionsResponse ≠ HttpResult.success none) :
    (directionsFallback env processed n).directionsCalled = true ∧
    (directionsFallback env processed n).matchingCalled = true ∧
    ∀ s m, (directionsFallback env processed n).response ≠ .apiError s m := by
  cases henv : env.directionsResponse with
  | netError => exact absurd henv hnet
  | httpError =>
    simp only [directionsFallback, simpleFallback, henv]
    exact ⟨by trivial, by trivial, by intro s m h; simp at h⟩
  | success ob =>
    cases ob with
    | none => exact absurd henv hparse
    | some routes =>
      cases routes with
      | nil =>
        simp only [directionsFallback, simpleFallback, henv]
        exact ⟨by trivial, by trivial, by intro s m h; simp at h⟩
      | cons r rs =>
        simp only [directionsFallback, henv]
        exact ⟨by trivial, by trivial, by intro s m h; simp at h⟩

theorem POST_matching_failed (env : ServerEnv) (coordinates : List Coordinate)
    (htok : env.tokenConfigured = true) (hlen : 2 ≤ coordinates.length)
    (hmatch : env.matchingResponse = HttpResult.httpError ∨
      env.matchingResponse = HttpResult.success none ∨
      ∃ d, env.matchingResponse = HttpResult.success (some d) ∧ d.matchings = []) :
    POST env coordinates =
      directionsFallback env (processedOf coordinates) coordinates.length := by
  have hlt : ¬ (coordinates.length < 2) := by omega
  rcases hmatch with h | h | ⟨d, hd, hm⟩
  · unfold POST; simp [htok, hlt, h]
  · unfold POST; simp [htok, hlt, h]
  · unfold POST; simp [htok, hlt, hd, hm]

theorem directionsFallback_failed (env : ServerEnv) (processed : List Coordinate)
    (n : ℕ) (hdir : env.directionsResponse = HttpResult.httpError ∨
      env.directionsResponse = HttpResult.success (some [])) :
    directionsFallback env processed n = simpleFallback processed n := by
  rcases hdir with h | h
  · unfold directionsFallback; simp [h]
  · unfold directionsFallback; simp [h]

theorem simpleFallback_spec (processed : List Coordinate) (n : ℕ) :
    ∃ res, (simpleFallback processed n).response = .apiRoute res ∧
      res.method = "simple" ∧ res.confidence = none ∧
      res.geometry.length = min processed.length 50 ∧
      res.processedPoints = min processed.length 50 := by
  unfold simpleFallback
  split
  · next h =>
    refine ⟨_, rfl, rfl, rfl, ?_, ?_⟩ <;>
      simp [List.length_map, sampleCoordinatesEvenly_length processed 50 (by omega)]
  · next h =>
    refine ⟨_, rfl, rfl, rfl, ?_, ?_⟩ <;> simp [List.length_map] <;> omega

/-- The environment of a request with the token set and both endpoints
answering a non-ok HTTP status. -/
def envBothFail : ServerEnv := ⟨true, .httpError, .httpError⟩

/-- The environment of a request with the token variable unset. -/
def envNoToken : ServerEnv := ⟨false, .httpError, .httpError⟩

/-- 149 fixes at timestamp 0 followed by one at timestamp 99: the time
step becomes 1, no interior fix qualifies, and the sampled sequence
collapses to 2 fixes. -/
def ex150 : List Coordinate := List.replicate 149 default ++ [⟨"", 0, 0, 99⟩]

set_option maxRecDepth 200000 in
/-- Claim C3 (counterexample): 150 fixes, 149 sharing a timestamp, with
both endpoints failing: the simple fallback answers with 2 vertices, not
min(150, 50) = 50, because time-based sampling kept only the first and
last fix. -/
theorem C3_counterexample :
    2 ≤ ex150.length ∧
    (POST envBothFail ex150).response.routeResult.map
        (fun r => (r.method, r.confidence, r.geometry.length)) =
      some ("simple", none, 2) ∧
    (2 : ℕ) ≠ min ex150.length 50 := by
  with_unfolding_all decide

/-- Claim C3 (amended): when the token is set, the input has at least 2
fixes, the matching endpoint yields no usable result and the directions
endpoint fails or returns no route, the handler answers with method
simple, no confidence, and a vertex count of min(sampledLen, 50) where
sampledLen is the length of the adaptively sampled sequence - which
equals min(len, 50) whenever len is at most 100, but not in general. -/
theorem C3_simple_fallback (env : ServerEnv) (coordinates : List Coordinate)
    (htok : env.tokenConfigured = true) (hlen : 2 ≤ coordinates.length)
    (hmatch : env.matchingResponse = HttpResult.httpError ∨
      env.matchingResponse = HttpResult.success none ∨
      ∃ d, env.matchingResponse = HttpResult.success (some d) ∧ d.matchings = [])
    (hdir : env.directionsResponse = HttpResult.httpError ∨
      env.directionsResponse = HttpResult.success (some [])) :
    ∃ res, (POST env coordinates).response = .apiRoute res ∧
      res.method = "simple" ∧ res.confidence = none ∧
      res.geometry.length = min (processedOf coordinates).length 50 ∧
      (coordinates.length ≤ 100 → res.geometry.length = min coordinates.length 50) := by
  rw [POST_matching_failed env coordinates htok hlen hmatch,
    directionsFallback_failed env _ _ hdir]
  obtain ⟨res, hres, hm, hc, hg, _⟩ := simpleFallback_spec (processedOf coordinates)
    coordinates.length
  exact ⟨res, hres, hm, hc, hg, fun h100 => by
    rw [hg, processedOf_length_of_le coordinates h100]⟩

theorem C3_simple_fallback_witness :
    envBothFail.tokenConfigured = true ∧
    2 ≤ ([⟨"a", 0, 0, 0⟩, ⟨"b", 0, 0, 1⟩] : List Coordinate).length ∧
    (envBothFail.matchingResponse = HttpResult.httpError ∨
      envBothFail.matchingResponse = HttpResult.success none ∨
      ∃ d, envBothFail.matchingResponse = HttpResult.success (some d) ∧
        d.matchings = []) ∧
    (envBothFail.directionsResponse = HttpResult.httpError ∨
      envBothFail.directionsResponse = HttpResult.success (some [])) ∧
    ∃ res, (POST envBothFail [⟨"a", 0, 0, 0⟩, ⟨"b", 0, 0, 1⟩]).response = .apiRoute res ∧
      res.method = "simple" ∧ res.confidence = none ∧
      res.geometry.length =
        min (processedOf [⟨"a", 0, 0, 0⟩, ⟨"b", 0, 0, 1⟩]).length 50 ∧
      (([⟨"a", 0, 0, 0⟩, ⟨"b", 0, 0, 1⟩] : List Coordinate).length ≤ 100 →
        res.geometry.length = min ([⟨"a", 0, 0, 0⟩, ⟨"b", 0, 0, 1⟩] :
          List Coordinate).length 50) :=
  ⟨rfl, by decide, Or.inl rfl, Or.inl rfl,
    C3_simple_fallback envBothFail [⟨"a", 0, 0, 0⟩, ⟨"b", 0, 0, 1⟩]
      rfl (by decide) (Or.inl rfl) (Or.inl rfl)⟩

set_option maxRecDepth 200000 in
/-- Claim C8 (counterexample): with the token variable unset, a
submission of 0 fixes is answered with the configuration error, not the
validation error - the token check on route.ts lines 28-30 precedes the
2-point check on lines 32-34. -/
theorem C8_counterexample :
    ([] : List Coordinate).length < 2 ∧
    (POST envNoToken []).response = .apiError 500 "Mapbox access token not configured" ∧
    ¬ (POST envNoToken []).response =
        .apiError 400 "At least 2 coordinates are required" := by
  with_unfolding_all decide

/-- Claim C8 (amended): provided the access token is configured, a
submission of fewer than 2 fixes is rejected with the validation error
before any processing, and neither external endpoint is called; with the
token absent the configuration error wins instead. -/
theorem C8_validation (env : ServerEnv) (coordinates : List Coordinate)
    (htok : env.tokenConfigured = true) (hlen : coordinates.length < 2) :
    POST env coordinates =
      ⟨.apiError 400 "At least 2 coordinates are required", false, false⟩ := by
  unfold POST
  simp [htok, hlen]

theorem C8_validation_witness :
    envBothFail.tokenConfigured = true ∧
    ([⟨"a", 0, 0, 0⟩] : List Coordinate).length < 2 ∧
    POST envBothFail [⟨"a", 0, 0, 0⟩] =
      ⟨.apiError 400 "At least 2 coordinates are required", false, false⟩ :=
  ⟨rfl, by decide, C8_validation envBothFail [⟨"a", 0, 0, 0⟩] rfl (by decide)⟩

/-- Claim C9 (confirmed): with the access token absent the handler
answers the configuration error immediately, for every input; neither
endpoint is called and no fallback result of any kind is produced. -/
theorem C9_config_failure (env : ServerEnv) (coordinates : List Coordinate)
    (h : env.tokenConfigured = false) :
    POST env coordinates =
      ⟨.apiError 500 "Mapbox access token not configured", false, false⟩ := by
  unfold POST
  simp [h]

theorem C9_config_failure_witness :
    envNoToken.tokenConfigured = false ∧
    POST envNoToken [⟨"a", 0, 0, 0⟩, ⟨"b", 0, 0, 1⟩] =
      ⟨.apiError 500 "Mapbox access token not configured", false, false⟩ :=
  ⟨rfl, C9_config_failure envNoToken [⟨"a", 0, 0, 0⟩, ⟨"b", 0, 0, 1⟩] rfl⟩

/-- The environment of a request whose matching response is HTTP-success
with an unparseable body and whose directions response is HTTP-success
with an unparseable body as well: the second parse failure is not
caught locally and the handler answers 500. -/
def envDirParseFail : ServerEnv := ⟨true, .success none, .success none⟩

set_option maxRecDepth 200000 in
/-- Claim C10 (counterexample): a contained matching parse failure does
not guarantee an error-free response - when the later directions
response is HTTP-ok with a body that fails the json() call on route.ts
line 141, the throw escapes to the top-level catch (lines 174-182) and
the caller receives the 500 Failed to process route error, even though
the matching-stage hypothesis of the claim holds. -/
theorem C10_counterexample :
    envDirParseFail.tokenConfigured = true ∧
    2 ≤ ([⟨"a", 0, 0, 0⟩, ⟨"b", 0, 0, 1⟩] : List Coordinate).length ∧
    envDirParseFail.matchingResponse = HttpResult.success none ∧
    (POST envDirParseFail [⟨"a", 0, 0, 0⟩, ⟨"b", 0, 0, 1⟩]).response =
      .apiError 500 "Failed to process route" := by
  with_unfolding_all decide

/-- Claim C10 (amended): an HTTP-success matching response whose body
does not parse as JSON, or parses without a non-empty matchings list, is
itself contained: no error is surfaced on its account and the cascade
proceeds to the directions call.  The handler then surfaces an error
exactly when the directions stage throws - a rejected directions fetch
or an HTTP-ok directions response with unparseable body - in which case
the top-level catch answers 500 Failed to process route; in every other
directions outcome no error reaches the caller. -/
theorem C10_parse_failure_contained (env : ServerEnv) (coordinates : List Coordinate)
    (htok : env.tokenConfigured = true) (hlen : 2 ≤ coordinates.length)
    (hbody : env.matchingResponse = HttpResult.success none ∨
      ∃ d, env.matchingResponse = HttpResult.success (some d) ∧ d.matchings = []) :
    (POST env coordinates).directionsCalled = true ∧
    (env.directionsResponse ≠ HttpResult.netError →
      env.directionsResponse ≠ HttpResult.success none →
      ∀ s m, (POST env coordinates).response ≠ .apiError s m) ∧
    ((env.directionsResponse = HttpResult.netError ∨
      env.directionsResponse = HttpResult.success none) →
      (POST env coordinates).response = .apiError 500 "Failed to process route") := by
  rw [POST_matching_failed env coordinates htok hlen (Or.inr hbody)]
  refine ⟨(directionsFallback_called env (processedOf coordinates)
    coordinates.length).1, ?_, ?_⟩
  · intro h1 h2
    exact (directionsFallback_no_error env (processedOf coordinates)
      coordinates.length h1 h2).2.2
  · intro h
    rw [directionsFallback_thrown env (processedOf coordinates)
      coordinates.length h]

/-- The environment of a request whose matching response is HTTP-success
with an unparseable body and whose directions call fails with a non-ok
status. -/
def envParseFail : ServerEnv := ⟨true, .success none, .httpError⟩

theorem C10_parse_failure_contained_witness :
    envParseFail.tokenConfigured = true ∧
    2 ≤ ([⟨"a", 0, 0, 0⟩, ⟨"b", 0, 0, 1⟩] : List Coordinate).length ∧
    (envParseFail.matchingResponse = HttpResult.success none ∨
      ∃ d, envParseFail.matchingResponse = HttpResult.success (some d) ∧
        d.matchings = []) ∧
    ((POST envParseFail [⟨"a", 0, 0, 0⟩, ⟨"b", 0, 0, 1⟩]).directionsCalled = true ∧
      (envParseFail.directionsResponse ≠ HttpResult.netError →
        envParseFail.directionsResponse ≠ HttpResult.success none →
        ∀ s m, (POST envParseFail [⟨"a", 0, 0, 0⟩, ⟨"b", 0, 0, 1⟩]).response ≠
          .apiError s m) ∧
      ((envParseFail.directionsResponse = HttpResult.netError ∨
        envParseFail.directionsResponse = HttpResult.success none) →
        (POST envParseFail [⟨"a", 0, 0, 0⟩, ⟨"b", 0, 0, 1⟩]).response =
          .apiError 500 "Failed to process route")) :=
  ⟨rfl, by decide, Or.inl rfl,
    C10_parse_failure_contained envParseFail [⟨"a", 0, 0, 0⟩, ⟨"b", 0, 0, 1⟩]
      rfl (by decide) (Or.inl rfl)⟩

theorem map_getD_range (l : List Coordinate) :
    (List.range l.length).map (fun j => l.getD j default) = l := by
  induction l with
  | nil => rfl
  | cons a t ih =>
    rw [List.length_cons, List.range_succ_eq_map, List.map_cons, List.map_map]
    have hcomp : ((fun j => (a :: t).getD j default) ∘ Nat.succ) =
        (fun j => t.getD j default) := by
      funext j
      rfl
    rw [hcomp, ih]
    rfl

theorem sampleCoordinatesEvenly_eq_map_indices (l : List Coordinate) (M : ℕ) :
    sampleCoordinatesEvenly l M =
      (evenSampleIndices l.length M).map (fun j => l.getD j default) := by
  unfold sampleCoordinatesEvenly evenSampleIndices
  split
  · exact (map_getD_range l).symm
  · simp only [List.map_append, List.map_cons, List.map_map, List.map_nil]
    rfl

theorem chain'_lt_range (n : ℕ) : (List.range n).Chain' (· < ·) := by
  cases n with
  | zero => simp
  | succ k => exact (List.chain'_range_succ (· < ·) k).mpr (fun m _ => Nat.lt_succ_self m)

theorem chain_strided (len M : ℕ) (hM : 2 ≤ M) (hlen : M < len) :
    ((0 : ℕ) :: ((List.range (M - 2)).map fun (i : ℕ) =>
      (jsRound (((i : ℚ) + 1) * (((len : ℚ) - 1) / ((M : ℚ) - 1)))).toNat)
      ++ [len - 1]).Chain' (· < ·) := by
  set step : ℚ := ((len : ℚ) - 1) / ((M : ℚ) - 1) with hstepdef
  have hM1 : (0 : ℚ) < (M : ℚ) - 1 := by
    have h2 : (2 : ℚ) ≤ (M : ℚ) := by exact_mod_cast hM
    linarith
  have hstep1 : (1 : ℚ) < step := by
    rw [hstepdef, one_lt_div hM1]
    have hc : (M : ℚ) < (len : ℚ) := by exact_mod_cast hlen
    linarith
  have hstep0 : (0 : ℚ) < step := lt_trans one_pos hstep1
  have hF0 : ∀ q : ℚ, 0 ≤ q → 0 ≤ ⌊q * step + 1 / 2⌋ := by
    intro q hq
    apply Int.floor_nonneg.mpr
    have hq0 : (0 : ℚ) ≤ q * step := mul_nonneg hq hstep0.le
    linarith
  have hFmono : ∀ q : ℚ, ⌊q * step + 1 / 2⌋ < ⌊(q + 1) * step + 1 / 2⌋ := by
    intro q
    have h1 : q * step + 1 / 2 + 1 ≤ (q + 1) * step + 1 / 2 := by
      have he : (q + 1) * step = q * step + step := by ring
      linarith
    calc ⌊q * step + 1 / 2⌋
        < ⌊q * step + 1 / 2⌋ + 1 := lt_add_one _
      _ = ⌊q * step + 1 / 2 + 1⌋ := (Int.floor_add_one _).symm
      _ ≤ ⌊(q + 1) * step + 1 / 2⌋ := Int.floor_le_floor h1
  have hF1 : 1 ≤ ⌊((0 : ℚ) + 1) * step + 1 / 2⌋ := by
    apply Int.le_floor.mpr
    push_cast
    linarith
  have hFmax : ⌊((M : ℚ) - 2) * step + 1 / 2⌋ ≤ (len : ℤ) - 2 := by
    have hMstep : ((M : ℚ) - 1) * step = (len : ℚ) - 1 := by
      rw [hstepdef]
      field_simp
    have hx : ((M : ℚ) - 2) * step + 1 / 2 < (((len : ℤ) - 1 : ℤ) : ℚ) := by
      have he : ((M : ℚ) - 2) * step = ((M : ℚ) - 1) * step - step := by ring
      push_cast
      rw [he, hMstep]
      linarith
    have hfl := Int.floor_lt.mpr hx
    omega
  rw [List.chain'_append]
  refine ⟨?_, by simp, ?_⟩
  · rw [List.chain'_cons']
    constructor
    · intro y hy
      rw [List.head?_map] at hy
      cases hM2 : M - 2 with
      | zero => rw [hM2] at hy; simp at hy
      | succ k =>
        rw [hM2, List.range_succ_eq_map] at hy
        simp only [List.head?_cons, Option.map_some] at hy
        have hy' : y = (⌊((0 : ℚ) + 1) * step + 1 / 2⌋).toNat := by
          rw [← Option.some_inj, ← hy]
          rfl
        rw [hy']
        omega
    · rw [List.chain'_map]
      cases hM2 : M - 2 with
      | zero => simp
      | succ k =>
        rw [List.chain'_range_succ]
        intro m _
        simp only [jsRound]
        push_cast
        have h1 := hFmono ((m : ℚ) + 1)
        have h2 := hF0 ((m : ℚ) + 1) (by positivity)
        omega
  · intro x hx y hy
    simp only [List.head?_cons, Option.mem_def, Option.some_inj] at hy
    subst hy
    cases hM2 : M - 2 with
    | zero =>
      rw [hM2] at hx
      simp only [List.range_zero, List.map_nil, List.getLast?_singleton,
        Option.mem_def, Option.some_inj] at hx
      subst hx
      omega
    | succ k =>
      simp only [hM2, List.range_succ, List.map_append, List.map_cons,
        List.map_nil] at hx
      rw [← List.cons_append, List.getLast?_concat, Option.mem_def,
        Option.some_inj] at hx
      subst hx
      have hk1 : ((k : ℚ) + 1) = (M : ℚ) - 2 := by
        have hk : (k + 1 : ℕ) = M - 2 := by omega
        have h2 : ((k + 1 : ℕ) : ℚ) = ((M - 2 : ℕ) : ℚ) := by rw [hk]
        push_cast [Nat.cast_sub hM] at h2
        linarith
      have hle : ⌊((k : ℚ) + 1) * step + 1 / 2⌋ ≤ (len : ℤ) - 2 := by
        rw [hk1]
        exact hFmax
      simp only [jsRound]
      omega

theorem evenSampleIndices_chain (len M : ℕ) (hM : 2 ≤ M) :
    (evenSampleIndices len M).Chain' (· < ·) := by
  unfold evenSampleIndices
  split
  · exact chain'_lt_range len
  · next h => exact chain_strided len M hM (by omega)

/-- Five fixes used to exercise the even sampler. -/
def exFive : List Coordinate :=
  [⟨"a", 0, 0, 0⟩, ⟨"b", 0, 0, 1⟩, ⟨"c", 0, 0, 2⟩, ⟨"d", 0, 0, 3⟩, ⟨"e", 0, 0, 4⟩]

/-- Claim C6 (confirmed): for any input of length at least 2 and target
at least 2, index-stride sampling outputs exactly min(len, M) fixes,
those fixes are the input read at the selected source indices (0, the
rounded strides round((i)(len-1)/(M-1)) for the interior slots, then
len-1; the whole range when no reduction happens), and that index
sequence is strictly increasing. -/
theorem C6_even_sampling (l : List Coordinate) (M : ℕ)
    (hl : 2 ≤ l.length) (hM : 2 ≤ M) :
    (sampleCoordinatesEvenly l M).length = min l.length M ∧
    sampleCoordinatesEvenly l M =
      (evenSampleIndices l.length M).map (fun j => l.getD j default) ∧
    (evenSampleIndices l.length M).Chain' (· < ·) :=
  ⟨sampleCoordinatesEvenly_length l M hM,
   sampleCoordinatesEvenly_eq_map_indices l M,
   evenSampleIndices_chain l.length M hM⟩

theorem C6_even_sampling_witness :
    2 ≤ exFive.length ∧ 2 ≤ 3 ∧
    ((sampleCoordinatesEvenly exFive 3).length = min exFive.length 3 ∧
      sampleCoordinatesEvenly exFive 3 =
        (evenSampleIndices exFive.length 3).map (fun j => exFive.getD j default) ∧
      (evenSampleIndices exFive.length 3).Chain' (· < ·)) :=
  ⟨by decide, by decide, C6_even_sampling exFive 3 (by decide) (by decide)⟩

theorem batchSplitGo_nil (maxPts fuel : ℕ) : batchSplitGo maxPts fuel [] = [] := by
  cases fuel <;> rfl

theorem batchSplitGo_spec (maxPts : ℕ) (hmax : 2 ≤ maxPts) :
    ∀ (fuel : ℕ) (l : List Coordinate), l.length ≤ fuel →
      ((batchSplitGo maxPts fuel l).flatten =
        (if l.length % maxPts = 1 then l.dropLast else l) ∧
      (∀ b ∈ batchSplitGo maxPts fuel l, 2 ≤ b.length ∧ b.length ≤ maxPts) ∧
      (∀ b ∈ (batchSplitGo maxPts fuel l).dropLast, b.length = maxPts)) := by
  intro fuel
  induction fuel with
  | zero =>
    intro l hl
    have hnil : l = [] := List.eq_nil_of_length_eq_zero (by omega)
    subst hnil
    simp [batchSplitGo]
  | succ fuel ih =>
    intro l hl
    cases l with
    | nil => simp [batchSplitGo]
    | cons a rest =>
      have hlen2 : (a :: rest).length = rest.length + 1 := rfl
      simp only [batchSplitGo]
      by_cases hcase : (a :: rest).length ≤ maxPts
      · have hdrop : (a :: rest).drop maxPts = [] := by
          rw [List.drop_eq_nil_iff]
          omega
        have htake : (a :: rest).take maxPts = a :: rest :=
          List.take_of_length_le hcase
        rw [htake, hdrop, batchSplitGo_nil]
        by_cases h2 : 2 ≤ (a :: rest).length
        · rw [if_pos (by simpa using h2)]
          have hmod : ¬ ((a :: rest).length % maxPts = 1) := by
            rcases Nat.lt_or_ge (a :: rest).length maxPts with hlt | hge
            · rw [Nat.mod_eq_of_lt hlt]
              omega
            · have heq : (a :: rest).length = maxPts := le_antisymm hcase hge
              rw [heq, Nat.mod_self]
              omega
          refine ⟨?_, ?_, ?_⟩
          · rw [if_neg hmod]
            simp
          · intro b hb
            simp only [List.mem_singleton] at hb
            subst hb
            exact ⟨h2, hcase⟩
          · intro b hb
            simp at hb
        · have hone : rest = [] := by
            simp only [List.length_cons] at h2
            exact List.eq_nil_of_length_eq_zero (by omega)
          subst hone
          rw [if_neg (by simp)]
          have hmod : ([a] : List Coordinate).length % maxPts = 1 := by
            have h1 : ([a] : List Coordinate).length = 1 := rfl
            rw [h1, Nat.mod_eq_of_lt (by omega)]
          rw [if_pos hmod]
          simp
      · push_neg at hcase
        have htakelen : ((a :: rest).take maxPts).length = maxPts := by
          rw [List.length_take]
          omega
        rw [if_pos (by rw [htakelen]; exact hmax)]
        have hdl : ((a :: rest).drop maxPts).length ≤ fuel := by
          rw [List.length_drop]
          simp only [List.length_cons] at hl ⊢
          omega
        obtain ⟨ihf, ihb, ihd⟩ := ih ((a :: rest).drop maxPts) hdl
        have hmod : ((a :: rest).drop maxPts).length % maxPts =
            (a :: rest).length % maxPts := by
          rw [List.length_drop]
          exact (Nat.mod_eq_sub_mod hcase.le).symm
        refine ⟨?_, ?_, ?_⟩
        · rw [List.flatten_cons, ihf, hmod]
          by_cases hm1 : (a :: rest).length % maxPts = 1
          · rw [if_pos hm1, if_pos hm1]
            have hdne : (a :: rest).drop maxPts ≠ [] := by
              intro hnil
              have := congrArg List.length hnil
              rw [List.length_drop] at this
              simp only [List.length_nil] at this
              omega
            conv_rhs => rw [← List.take_append_drop maxPts (a :: rest)]
            rw [List.dropLast_append_of_ne_nil _ hdne]
          · rw [if_neg hm1, if_neg hm1]
            exact List.take_append_drop maxPts (a :: rest)
        · intro b hb
          rcases List.mem_cons.mp hb with hb | hb
          · subst hb
            rw [htakelen]
            exact ⟨hmax, le_refl _⟩
          · exact ihb b hb
        · intro b hb
          cases hG : batchSplitGo maxPts fuel ((a :: rest).drop maxPts) with
          | nil => rw [hG] at hb; simp at hb
          | cons g gs =>
            rw [hG] at hb
            simp only [List.dropLast_cons₂, List.mem_cons] at hb
            rcases hb with hb | hb
            · subst hb
              exact htakelen
            · apply ihd
              rw [hG]
              exact hb

/-- Claim C1 (confirmed): the client pipeline splits an input of more
than maxPointsPerRequest fixes into consecutive windows of
maxPointsPerRequest; concatenating the returned batches in order
reproduces the sequence with the trailing window dropped exactly when
that window has fewer than 2 fixes (its size is len mod 100, dropped
only when that is 1), every batch has between 2 and 100 fixes, and
every batch except possibly the last is a full window. -/
theorem C1_batch_partition (coordinates : List Coordinate)
    (_h : maxPointsPerRequest < coordinates.length) :
    (batchSplit coordinates maxPointsPerRequest).flatten =
      (if coordinates.length % maxPointsPerRequest = 1 then coordinates.dropLast
       else coordinates) ∧
    (∀ b ∈ batchSplit coordinates maxPointsPerRequest,
      2 ≤ b.length ∧ b.length ≤ maxPointsPerRequest) ∧
    (∀ b ∈ (batchSplit coordinates maxPointsPerRequest).dropLast,
      b.length = maxPointsPerRequest) := by
  unfold batchSplit
  exact batchSplitGo_spec maxPointsPerRequest (by norm_num [maxPointsPerRequest])
    coordinates.length coordinates (le_refl _)

theorem C1_batch_partition_witness :
    maxPointsPerRequest < ex101.length ∧
    ((batchSplit ex101 maxPointsPerRequest).flatten =
      (if ex101.length % maxPointsPerRequest = 1 then ex101.dropLast else ex101) ∧
    (∀ b ∈ batchSplit ex101 maxPointsPerRequest,
      2 ≤ b.length ∧ b.length ≤ maxPointsPerRequest) ∧
    (∀ b ∈ (batchSplit ex101 maxPointsPerRequest).dropLast,
      b.length = maxPointsPerRequest)) :=
  ⟨by decide, C1_batch_partition ex101 (by decide)⟩

/-- Claim C2 (confirmed): in the client pipeline, when the matching
stage (single or batched) produced nothing and the directions endpoint
answers with a non-empty route list, the result is the directions
strategy - the method the spec data model names routed - and its
confidence is exactly 0.9 (map-component.tsx line 180). -/
theorem C2_routed_confidence (env : ClientEnv) (coordinates : List Coordinate)
    (hlen : 2 ≤ coordinates.length)
    (hmatch : (if coordinates.length ≤ 100 then performMapMatching env coordinates
               else performBatchMapMatching env coordinates) = none)
    (route : DirectionsRoute) (rs : List DirectionsRoute)
    (hdir : env.directionsRoutes = some (route :: rs)) :
    ∃ res, clientProcessRoute env coordinates = some res ∧
      res.method = "directions" ∧ specMethod res.method = some "routed" ∧
      res.confidence = 9 / 10 := by
  have h1 : clientProcessRoute env coordinates =
      performDirectionsMatching env coordinates := by
    unfold clientProcessRoute
    rw [hmatch]
  rw [h1]
  unfold performDirectionsMatching
  rw [if_neg (by omega), hdir]
  exact ⟨_, rfl, rfl, rfl, rfl⟩

/-- A client environment whose matching endpoint always fails and whose
directions endpoint returns one route. -/
def envClientDirOnly : ClientEnv :=
  ⟨fun _ => none, some [⟨[(0, 0), (1, 1)], 5, 7⟩]⟩

/-- Two fixes used as a minimal valid input. -/
def exTwo : List Coordinate := [⟨"a", 0, 0, 0⟩, ⟨"b", 0, 0, 1⟩]

theorem C2_routed_confidence_witness :
    2 ≤ exTwo.length ∧
    (if exTwo.length ≤ 100 then performMapMatching envClientDirOnly exTwo
     else performBatchMapMatching envClientDirOnly exTwo) = none ∧
    envClientDirOnly.directionsRoutes = some ([⟨[(0, 0), (1, 1)], 5, 7⟩] :
      List DirectionsRoute) ∧
    ∃ res, clientProcessRoute envClientDirOnly exTwo = some res ∧
      res.method = "directions" ∧ specMethod res.method = some "routed" ∧
      res.confidence = 9 / 10 :=
  ⟨by decide, by with_unfolding_all decide, rfl,
    C2_routed_confidence envClientDirOnly exTwo (by decide)
      (by with_unfolding_all decide) ⟨[(0, 0), (1, 1)], 5, 7⟩ [] rfl⟩
